import Mathlib

/-!
# The request pipeline of `app.js`

`src/app.js` builds one Express application: it registers, in this order,
the JSON body parser (line 9), the logger (line 10), the `GET /health` route
(lines 13-15), the auth router under `/api/auth` (line 17), the task router
under `/api/tasks` (line 18) and the error handler (line 20).

The development below embeds

* the layer table of `app.js` (`app`),
* the dispatch loop Express runs over such a table (`dispatch`): path
  matching, method matching, the pending-error rule and the final handler,
* the body parser of line 9 with the checks it makes before it parses
  (`bodyParser`),
* the health handler of lines 13-15 with what `res.json` does on the way out
  (`send`: the freshness check of conditional requests, no body for HEAD) and
  with `Date.prototype.toISOString` (`toISOString`),
* the modules `app.js` requires but which are not part of it, as the record
  `Deps` of their observable behaviour.
-/

namespace App

/-! ## Data model -/

/-- HTTP request methods. -/
inductive Method where
  | GET | HEAD | POST | PUT | DELETE | PATCH | OPTIONS
  deriving DecidableEq, Repr

/-- Failure kinds of the error taxonomy. -/
inductive FailureKind where
  | BadRequest | Unauthorized | NotFound | MethodNotAllowed
  | UpstreamUnavailable | Internal
  deriving DecidableEq, Repr

/-- A value handed to `next(err)`: its kind in the error taxonomy, when the
specification gives it one; the `status` property the raiser put on the error
object, if any; and a detail message. -/
structure Failure where
  kind : Option FailureKind
  status : Option Nat
  detail : Option String
  deriving DecidableEq, Repr

/-- One inbound request, as far as the pipeline reads it.
`path` is the pathname of the URL (no query string), `baseUrl` the part
already consumed by a mount point, `credential` is the token found at the
well-known location, if any.

What the body parser reads: `declaredJson` says that the request has a body
whose content type is JSON; `utfCharset` that the charset of the content type
(utf-8 when none is given) starts with `utf-`; `knownEncoding` that the
content encoding is one the parser decodes (identity when none is given);
`bodyBytes` is the size of the decoded body in bytes; `complete` says that the
body arrived whole, with the announced length; `body` is its text.

What `res.send` reads: the headers `If-None-Match` and `If-Modified-Since`,
and `noCache`, which says that `Cache-Control` carries `no-cache`. -/
structure Request where
  method : Method
  path : String
  baseUrl : String
  declaredJson : Bool
  utfCharset : Bool
  knownEncoding : Bool
  bodyBytes : Nat
  complete : Bool
  body : String
  credential : Option String
  ifNoneMatch : Option String
  ifModifiedSince : Option String
  noCache : Bool
  deriving DecidableEq, Repr

/-- A response body: a JSON object given by its fields, a plain text, the
HTML page Express generates itself (its text is not modelled), or nothing. -/
inductive Body where
  | json (fields : List (String × String))
  | text (s : String)
  | html
  | empty
  deriving DecidableEq, Repr

/-- A committed response: status code and body. -/
structure Response where
  status : Nat
  body : Body
  deriving DecidableEq, Repr

/-- What one stage does with a request: it calls `next()`, it commits a
response, or it calls `next(err)` / throws. -/
inductive Outcome where
  | next
  | respond (r : Response)
  | fail (f : Failure)
  deriving DecidableEq, Repr

/-- The stages registered by `app.js`, in registration order. -/
inductive Stage where
  | bodyParser | logger | health | authRouter | taskRouter | errorHandler
  deriving DecidableEq, Repr

/-- What happens inside the task router. -/
inductive TaskEvent where
  | guard | verify | handler
  deriving DecidableEq, Repr

/-- The modules and library services `app.js` depends on, by behaviour.
`logger`, `authRoutes`, `taskRoutes` and `errorHandler` are the four required
modules; the task router also reports what ran inside it. `jsonOk` is the JSON
parser of the body parser. `now` is the clock read by `new Date()`, in
milliseconds since 1970-01-01 UTC, always a valid time value. `etag` is the
function `res.send` uses to tag a body (the weak tag of the default
settings). `noneMatchDecides` tells the two releases of the freshness check
apart: with Express 5 a request with `If-None-Match` is judged by that header
alone, with Express 4 `If-Modified-Since` is checked as well. -/
structure Deps where
  jsonOk : String → Bool
  now : Int
  nowValid : -8640000000000000 ≤ now ∧ now ≤ 8640000000000000
  etag : Body → String
  noneMatchDecides : Bool
  logger : Request → Outcome
  authRoutes : Request → Outcome
  taskRoutes : Request → List TaskEvent × Outcome
  errorHandler : Failure → Request → Outcome

/-! ## Path matching

Express compiles a path with `sensitive: false` and `strict: false`: letters
compare without regard to case and one trailing slash is optional. A route
path must match the whole pathname; a mount path must match a leading part of
it that ends at a segment boundary. -/

/-- Strips the pattern from the front of the path, comparing letters without
regard to case; `none` when the path does not start with the pattern. -/
def stripPattern : List Char → List Char → Option (List Char)
  | [], rest => some rest
  | _ :: _, [] => none
  | p :: ps, c :: cs => if c.toLower = p.toLower then stripPattern ps cs else none

/-- Mirrors the regular expression of a route path, `^pattern\/?$`. -/
def matchRoute (pattern path : String) : Bool :=
  match stripPattern pattern.data path.data with
  | some [] => true
  | some [c] => c = '/'
  | _ => false

/-- Mirrors the regular expression of a mount path, `^pattern\/?(?=\/|$)`;
the mount path `/` matches every pathname. -/
def matchMount (pattern path : String) : Bool :=
  if pattern = "/" then true
  else
    match stripPattern pattern.data path.data with
    | some [] => true
    | some (c :: _) => c = '/'
    | none => false

/-- The text a mount point removes from the pathname: the pattern and, when
the rest is a single slash or starts with two slashes, that first slash. -/
def consumed (pattern path : String) : Nat :=
  match stripPattern pattern.data path.data with
  | some [c] => if c = '/' then pattern.length + 1 else pattern.length
  | some (c :: c2 :: _) => if c = '/' ∧ c2 = '/' then pattern.length + 1 else pattern.length
  | _ => pattern.length

/-- The request as a mounted router sees it: the matched part moves to
`baseUrl` (without a trailing slash) and the pathname keeps the rest, with a
leading slash restored when nothing is left. -/
def mounted (pattern : String) (req : Request) : Request :=
  if pattern = "/" then req
  else
    let rest := String.mk (req.path.data.drop (consumed pattern req.path))
    { req with
      baseUrl := req.baseUrl ++ String.mk (req.path.data.take pattern.length)
      path := if rest.data.head? = some '/' then rest else "/" ++ rest }

/-! ## Stages -/

/-- The parse step of the JSON body parser: an empty body is accepted as the
empty object, any other body must be accepted by the JSON parser. -/
def parses (d : Deps) (body : String) : Bool :=
  body.isEmpty || d.jsonOk body

/-- The error the body parser passes to `next` for an unparsable body; the
specification names this failure `BadRequest`. -/
def parseError : Failure :=
  { kind := some .BadRequest, status := some 400, detail := some "entity.parse.failed" }

/-- The error of the body parser for a charset that is not a `utf-` one. -/
def unsupportedCharset : Failure :=
  { kind := none, status := some 415, detail := some "charset.unsupported" }

/-- The error of the body parser for a content encoding it cannot decode. -/
def unsupportedEncoding : Failure :=
  { kind := none, status := some 415, detail := some "encoding.unsupported" }

/-- The error of the body parser for a body above the size limit. -/
def tooLarge : Failure :=
  { kind := none, status := some 413, detail := some "entity.too.large" }

/-- The error of the body parser for a body that was cut short or whose size
differs from the announced length. -/
def sizeInvalid : Failure :=
  { kind := none, status := some 400, detail := some "request.size.invalid" }

/-- The size limit of `express.json()` without options, `100kb`. -/
def bodyLimit : Nat := 102400

/-- What the body parser checks before it parses, in its order: the charset,
the content encoding, the size limit, the completeness of the body. -/
def refusal (req : Request) : Option Failure :=
  if !req.utfCharset then some unsupportedCharset
  else if !req.knownEncoding then some unsupportedEncoding
  else if bodyLimit < req.bodyBytes then some tooLarge
  else if !req.complete then some sizeInvalid
  else none

/-- Line 9, `express.json()`: a request without a JSON body passes through;
a JSON body is read, which may be refused, and then parsed, and a body that
does not parse raises the 400 error. -/
def bodyParser (d : Deps) (req : Request) : Outcome :=
  if req.declaredJson then
    match refusal req with
    | some f => .fail f
    | none => if parses d req.body then .next else .fail parseError
  else .next

/-! ### The clock and `toISOString` -/

/-- Leap years of the Gregorian calendar. -/
def isLeap (y : Int) : Bool :=
  y % 4 = 0 && (y % 100 != 0 || y % 400 = 0)

/-- Days of a year. -/
def yearLen (y : Int) : Nat :=
  if isLeap y then 366 else 365

/-- Days of the twelve months of a year. -/
def monthLens (y : Int) : List Nat :=
  [31, if isLeap y then 29 else 28, 31, 30, 31, 30, 31, 31, 30, 31, 30, 31]

/-- Days of month `m` (1 to 12) of year `y`. -/
def daysIn (y : Int) (m : Nat) : Nat :=
  (monthLens y).getD (m - 1) 0

/-- Walks whole years off a day count: the year that holds day `d` counted
from the first day of year `y`, and the day within that year. -/
def yearOf : Nat → Int → Nat → Int × Nat
  | 0, y, d => (y, d)
  | fuel + 1, y, d => if d < yearLen y then (y, d) else yearOf fuel (y + 1) (d - yearLen y)

/-- Walks whole months off a day of the year: the month number and the day
within the month, both counted from the given start. -/
def monthOf : List Nat → Nat → Nat → Nat × Nat
  | [], m, d => (m, d)
  | l :: ls, m, d => if d < l then (m, d) else monthOf ls (m + 1) (d - l)

/-- A calendar date and time of day in UTC. -/
structure DateTime where
  year : Int
  month : Nat
  day : Nat
  hour : Nat
  minute : Nat
  second : Nat
  milli : Nat
  deriving DecidableEq, Repr

/-- The UTC date and time of a time value, milliseconds since 1970-01-01. -/
def civil (ms : Int) : DateTime :=
  let days := ms / 86400000
  let rest := (ms % 86400000).toNat
  let era := days / 146097
  let doe := (days % 146097).toNat
  let yd := yearOf (doe + 1) (1970 + 400 * era) doe
  let md := monthOf (monthLens yd.1) 1 yd.2
  { year := yd.1, month := md.1, day := md.2 + 1, hour := rest / 3600000,
    minute := rest / 60000 % 60, second := rest / 1000 % 60, milli := rest % 1000 }

/-- The decimal digit of the units of `n`. -/
def digit (n : Nat) : Char :=
  Char.ofNat (48 + n % 10)

/-- Two decimal digits. -/
def digits2 (n : Nat) : List Char := [digit (n / 10), digit n]
/-- Three decimal digits. -/
def digits3 (n : Nat) : List Char := [digit (n / 100), digit (n / 10), digit n]
/-- Four decimal digits. -/
def digits4 (n : Nat) : List Char := [digit (n / 1000), digit (n / 100), digit (n / 10), digit n]
/-- Six decimal digits. -/
def digits6 (n : Nat) : List Char :=
  [digit (n / 100000), digit (n / 10000), digit (n / 1000), digit (n / 100), digit (n / 10),
    digit n]

/-- The year as `toISOString` writes it: four digits for the years 0 to 9999,
otherwise a sign and six digits. -/
def yearText (y : Int) : List Char :=
  if 0 ≤ y ∧ y ≤ 9999 then digits4 y.toNat
  else (if y < 0 then '-' else '+') :: digits6 y.natAbs

/-- `Date.prototype.toISOString`: the time value as `YYYY-MM-DDTHH:mm:ss.sssZ`. -/
def toISOString (ms : Int) : String :=
  let t := civil ms
  String.mk (yearText t.year ++ '-' :: digits2 t.month ++ '-' :: digits2 t.day ++
    'T' :: digits2 t.hour ++ ':' :: digits2 t.minute ++ ':' :: digits2 t.second ++
    '.' :: digits3 t.milli ++ ['Z'])

/-- The value of a decimal digit. -/
def digitValue (c : Char) : Option Nat :=
  if '0' ≤ c ∧ c ≤ '9' then some (c.toNat - 48) else none

/-- The value of a run of decimal digits. -/
def number : List Char → Option Nat
  | cs => cs.foldl (fun acc c =>
      match acc, digitValue c with
      | some a, some v => some (a * 10 + v)
      | _, _ => none) (some 0)

/-- Reads what follows the year in the date-time string format: month, day,
hour, minute, second and milliseconds, each in its range. -/
def parseRest (year : Int) : List Char → Option DateTime
  | [s1, m1, m2, s2, d1, d2, t, h1, h2, c1, n1, n2, c2, e1, e2, dot, f1, f2, f3, z] =>
    if s1 = '-' ∧ s2 = '-' ∧ t = 'T' ∧ c1 = ':' ∧ c2 = ':' ∧ dot = '.' ∧ z = 'Z' then
      match number [m1, m2], number [d1, d2], number [h1, h2], number [n1, n2],
          number [e1, e2], number [f1, f2, f3] with
      | some month, some day, some hour, some minute, some second, some milli =>
        if 1 ≤ month ∧ month ≤ 12 ∧ 1 ≤ day ∧ day ≤ daysIn year month ∧ hour ≤ 23
            ∧ minute ≤ 59 ∧ second ≤ 59 then
          some ⟨year, month, day, hour, minute, second, milli⟩
        else none
      | _, _, _, _, _, _ => none
    else none
  | _ => none

/-- A parser for the complete form of the ECMAScript date-time string format,
`YYYY-MM-DDTHH:mm:ss.sssZ`, also with an expanded year (`+YYYYYY`, `-YYYYYY`). -/
def parseISO (s : String) : Option DateTime :=
  match s.data with
  | sign :: a :: b :: c :: d :: e :: f :: rest =>
    if sign = '+' ∨ sign = '-' then
      match number [a, b, c, d, e, f] with
      | some y =>
        if sign = '-' ∧ y = 0 then none
        else parseRest (if sign = '-' then -(y : Int) else y) rest
      | none => none
    else
      match number [sign, a, b, c] with
      | some y => parseRest y (d :: e :: f :: rest)
      | none => none
  | _ => none

/-! ### Sending a response -/

/-- A header value as JavaScript tests it: an empty value counts as absent. -/
def present : Option String → Option String
  | some v => if v = "" then none else some v
  | none => none

/-- Drops the spaces at both ends. -/
def trimSpaces (cs : List Char) : List Char :=
  ((cs.dropWhile (fun c => c = ' ')).reverse.dropWhile (fun c => c = ' ')).reverse

/-- Splits at every comma. -/
def splitCommas : List Char → List (List Char)
  | [] => [[]]
  | c :: cs =>
    if c = ',' then [] :: splitCommas cs
    else
      match splitCommas cs with
      | t :: ts => (c :: t) :: ts
      | [] => [[c]]

/-- The entity tags listed in an `If-None-Match` header. -/
def tokenList (v : String) : List String :=
  (splitCommas v.data).map (fun t => String.mk (trimSpaces t))

/-- Whether one of the listed tags is the tag of the response, weakly
compared. -/
def etagMatches (etag noneMatch : String) : Bool :=
  (tokenList noneMatch).any (fun m => m = etag || m = "W/" ++ etag || "W/" ++ m = etag)

/-- The freshness check of a conditional request against a response that has
the given entity tag and no `Last-Modified` header. An unconditional request
is stale, and so is one with `Cache-Control: no-cache`. `If-None-Match` is
satisfied by `*` or by a matching tag. `If-Modified-Since` is never satisfied,
for want of a `Last-Modified` header. -/
def fresh (d : Deps) (req : Request) (etag : String) : Bool :=
  match present req.ifModifiedSince, present req.ifNoneMatch with
  | none, none => false
  | since, noneMatch =>
    if req.noCache then false
    else
      match noneMatch with
      | some v =>
        (v = "*" || (etag != "" && etagMatches etag v))
          && (d.noneMatchDecides || since.isNone)
      | none => false

/-- The getter `req.fresh`: only GET and HEAD requests, and only responses
with a 2xx status or 304, can be fresh. -/
def isFresh (d : Deps) (req : Request) (status : Nat) (body : Body) : Bool :=
  (req.method = .GET || req.method = .HEAD)
    && ((200 ≤ status && status < 300) || status = 304)
    && fresh d req (d.etag body)

/-- The method `res.send`, through which `res.json` goes: a fresh request is
answered 304; a response with status 204 or 304 has no body; a HEAD request
gets no body. -/
def send (d : Deps) (req : Request) (status : Nat) (body : Body) : Response :=
  let sent := if isFresh d req status body then 304 else status
  if sent = 204 ∨ sent = 304 then { status := sent, body := .empty }
  else if req.method = .HEAD then { status := sent, body := .empty }
  else { status := sent, body := body }

/-- The body the health handler builds on line 14. -/
def healthBody (d : Deps) : Body :=
  .json [("status", "ok"), ("timestamp", toISOString d.now)]

/-- Lines 13-15: the health handler sets status 200, sends the body with the
two fields `status` and `timestamp` through `res.json`, and does not call
`next`. -/
def healthHandler (d : Deps) (req : Request) : Outcome :=
  .respond (send d req 200 (healthBody d))

/-- One entry of the layer table of an Express application. -/
inductive Layer where
  /-- Registered by `app.use(path, fn)` with a request handler. -/
  | use (mount : String) (stage : Stage)
  /-- Registered by `app.get(path, fn)` and its siblings. -/
  | route (method : Method) (path : String) (stage : Stage)
  /-- Registered by `app.use(fn)` with a four-argument error handler. -/
  | useError (mount : String) (stage : Stage)
  deriving DecidableEq, Repr

/-- The layer table of `app.js`, lines 9 to 20. The handler of line 20 is
registered as an error handler (four parameters), as its name and its place
after the routes say; its module is not part of `app.js`. -/
def app : List Layer :=
  [ .use "/" .bodyParser,
    .use "/" .logger,
    .route .GET "/health" .health,
    .use "/api/auth" .authRouter,
    .use "/api/tasks" .taskRouter,
    .useError "/" .errorHandler ]

/-- One invocation of a stage: which stage, the pending error it was handed
(only an error handler receives one), what ran inside it, and its outcome. -/
structure Step where
  stage : Stage
  received : Option Failure
  inner : List TaskEvent
  outcome : Outcome
  deriving DecidableEq, Repr

/-- Runs the function registered for a stage. The error handler is the only
stage that reads the pending error. -/
def invoke (d : Deps) (s : Stage) (err : Option Failure) (req : Request) : Step :=
  match s with
  | .bodyParser => ⟨s, none, [], bodyParser d req⟩
  | .logger => ⟨s, none, [], d.logger req⟩
  | .health => ⟨s, none, [], healthHandler d req⟩
  | .authRouter => ⟨s, none, [], d.authRoutes req⟩
  | .taskRouter => ⟨s, none, (d.taskRoutes req).1, (d.taskRoutes req).2⟩
  | .errorHandler =>
    match err with
    | some f => ⟨s, some f, [], d.errorHandler f req⟩
    | none => ⟨s, none, [], .next⟩

/-- How a request left the layer table. -/
inductive Result where
  /-- Every layer was passed and no error is pending. -/
  | completed
  /-- A stage committed a response. -/
  | responded (r : Response)
  /-- Every layer was passed and an error is still pending. -/
  | failed (f : Failure)
  deriving DecidableEq, Repr

/-- The record of one request: the stage invocations in order, the methods
collected for an automatic `OPTIONS` answer, and the result. -/
structure Run where
  steps : List Step
  allow : List Method
  result : Result
  deriving DecidableEq, Repr

/-- A route registered for `GET` also serves `HEAD`. -/
def handlesMethod (routeMethod m : Method) : Bool :=
  m = routeMethod || (m = .HEAD && routeMethod = .GET)

/-- The methods a route reports for an automatic `OPTIONS` answer. -/
def routeOptions (routeMethod : Method) : List Method :=
  if routeMethod = .GET then [.GET, .HEAD] else [routeMethod]

/-- Puts a stage invocation in front of the record of what follows it. -/
def Run.push (st : Step) (r : Run) : Run :=
  { r with steps := st :: r.steps }

/-- Adds methods collected for an automatic `OPTIONS` answer. -/
def Run.allowing (ms : List Method) (r : Run) : Run :=
  { r with allow := ms ++ r.allow }

/-- Continues the dispatch after a stage ran: `next()` goes on without a
pending error, `next(err)` goes on with `err` pending, a committed response
ends the dispatch. -/
def afterStep (st : Step) (rest : Option Failure → Run) : Run :=
  match st.outcome with
  | .next => (rest none).push st
  | .fail f => (rest (some f)).push st
  | .respond resp => { steps := [st], allow := [], result := .responded resp }

/-- The dispatch loop of the Express router over a layer table.
A layer whose path does not match is passed over. A request handler is passed
over while an error is pending, an error handler while none is. A route is
also passed over when it does not handle the method; for `OPTIONS` its methods
are then collected. A stage that commits a response ends the loop; one that
fails makes its error the pending one. -/
def dispatch (d : Deps) (req : Request) : List Layer → Option Failure → Run
  | [], none => { steps := [], allow := [], result := .completed }
  | [], some f => { steps := [], allow := [], result := .failed f }
  | .use mount s :: ls, err =>
    if matchMount mount req.path then
      match err with
      | some f => dispatch d req ls (some f)
      | none => afterStep (invoke d s none (mounted mount req)) (dispatch d req ls)
    else dispatch d req ls err
  | .useError mount s :: ls, err =>
    if matchMount mount req.path then
      match err with
      | some f => afterStep (invoke d s (some f) (mounted mount req)) (dispatch d req ls)
      | none => dispatch d req ls none
    else dispatch d req ls err
  | .route m path s :: ls, err =>
    if matchRoute path req.path then
      match err with
      | some f => dispatch d req ls (some f)
      | none =>
        if handlesMethod m req.method then
          afterStep (invoke d s none req) (dispatch d req ls)
        else if req.method = .OPTIONS then
          (dispatch d req ls none).allowing (routeOptions m)
        else dispatch d req ls none
    else dispatch d req ls err

/-- The application of `app.js` handling one request. -/
def handle (d : Deps) (req : Request) : Run :=
  dispatch d req app none

/-- Text of a method name. -/
def Method.text : Method → String
  | .GET => "GET" | .HEAD => "HEAD" | .POST => "POST" | .PUT => "PUT"
  | .DELETE => "DELETE" | .PATCH => "PATCH" | .OPTIONS => "OPTIONS"

/-- The status the final handler of Express derives from a pending error: the
error's own `status` when it is a 4xx or 5xx code, 500 otherwise. -/
def errorStatus (f : Failure) : Nat :=
  match f.status with
  | some s => if 400 ≤ s ∧ s < 600 then s else 500
  | none => 500

/-- The response the client receives. A committed response is sent as is.
When the table is exhausted, Express answers itself: an `OPTIONS` request for
which methods were collected gets 200 with the list of methods (sent through
`res.send`, which leaves the answer to an `OPTIONS` request as it is), a
pending error gets the status of the error, anything else gets 404. -/
def response (r : Run) : Response :=
  match r.result with
  | .responded resp => resp
  | .failed f => { status := errorStatus f, body := .html }
  | .completed =>
    if r.allow = [] then { status := 404, body := .html }
    else { status := 200, body := .text (",".intercalate (r.allow.map Method.text)) }

/-- The stages invoked for a request, in order. -/
def Run.stages (r : Run) : List Stage :=
  r.steps.map Step.stage

/-- Everything that ran inside the task router for a request. -/
def Run.taskEvents (r : Run) : List TaskEvent :=
  (r.steps.map Step.inner).flatten

/-! ## The required modules, after the specification

`app.js` requires four modules that are not part of it. Their behaviour is
taken from the specification of the pipeline; what lies behind them (the
credential check, the task and auth handlers, the message texts) stays a
parameter. -/

/-- The answer of the credential verification interface. -/
inductive Verdict where
  | identity (id : Nat)
  | rejected
  | unavailable
  deriving DecidableEq, Repr

/-- The collaborators behind the pipeline and the library services. -/
structure External where
  jsonOk : String → Bool
  now : Int
  nowValid : -8640000000000000 ≤ now ∧ now ≤ 8640000000000000
  etag : Body → String
  noneMatchDecides : Bool
  upstreamStatus : Nat
  message : Failure → String
  malformed : String → Bool
  verifyCredential : String → Verdict
  authHandlers : Request → Outcome
  taskHandlers : Nat → Request → Outcome

/-- Modelled from the spec: the logger of `middlewares/logger.middleware.js`,
which is not in the sources. It is side-effect only and never alters control
flow, so it always calls `next()`. -/
def specLogger (_req : Request) : Outcome := .next

/-- Modelled from the spec: the status table of the error normalizer of
`middlewares/error.middleware.js`, which is not in the sources. The table
leaves the status of `UpstreamUnavailable` open between 502 and 503, so it is
a parameter. -/
def statusOf (upstream : Nat) : FailureKind → Nat
  | .BadRequest => 400
  | .Unauthorized => 401
  | .NotFound => 404
  | .MethodNotAllowed => 405
  | .UpstreamUnavailable => upstream
  | .Internal => 500

/-- Modelled from the spec: the error normalizer of
`middlewares/error.middleware.js`, which is not in the sources. It answers
every failure with the status of its kind and a JSON body with a `message`
field and the optional detail; a failure without a kind is unclassified and
falls under `Internal`, the default of the table. -/
def specErrorHandler (x : External) (f : Failure) (_req : Request) : Outcome :=
  .respond
    { status := statusOf x.upstreamStatus (f.kind.getD .Internal)
      body := .json (("message", x.message f) ::
        match f.detail with
        | some t => [("detail", t)]
        | none => []) }

/-- The failure the auth guard raises for a missing or invalid credential. -/
def unauthorized : Failure :=
  { kind := some .Unauthorized, status := some 401, detail := none }

/-- Modelled from the spec: the auth guard used by `routes/task.routes.js`,
which is not in the sources. A missing or malformed token is refused without
calling the verification interface; otherwise the interface is called once,
and a rejection is `Unauthorized`, an outage `UpstreamUnavailable`. -/
def specAuthGuard (x : External) (req : Request) : List TaskEvent × Except Failure Nat :=
  match req.credential with
  | none => ([.guard], .error unauthorized)
  | some token =>
    if x.malformed token then ([.guard], .error unauthorized)
    else
      match x.verifyCredential token with
      | .identity id => ([.guard, .verify], .ok id)
      | .rejected => ([.guard, .verify], .error unauthorized)
      | .unavailable => ([.guard, .verify], .error ⟨some .UpstreamUnavailable, none, none⟩)

/-- Modelled from the spec: the task router of `routes/task.routes.js`, which
is not in the sources. Every task route is protected: the request passes
through the auth guard first and reaches the task handlers only with the
identity the guard resolved. -/
def specTaskRoutes (x : External) (req : Request) : List TaskEvent × Outcome :=
  match specAuthGuard x req with
  | (ev, .error f) => (ev, .fail f)
  | (ev, .ok id) => (ev ++ [.handler], x.taskHandlers id req)

/-- The dependencies of `app.js` with the required modules as specified. -/
def specDeps (x : External) : Deps :=
  { jsonOk := x.jsonOk
    now := x.now
    nowValid := x.nowValid
    etag := x.etag
    noneMatchDecides := x.noneMatchDecides
    logger := specLogger
    authRoutes := x.authHandlers
    taskRoutes := specTaskRoutes x
    errorHandler := specErrorHandler x }

/-- The request carries no credential the guard accepts: the token is
missing, malformed, or rejected by the verification interface. -/
def lacksValidCredential (x : External) (req : Request) : Bool :=
  match req.credential with
  | none => true
  | some token => x.malformed token || x.verifyCredential token = .rejected

/-! ## Sample data -/

/-- A stand-in JSON check that knows one document, the empty array. -/
def sampleJsonOk (s : String) : Bool :=
  s = "[]"

/-- Sample collaborators: one known token, handlers that answer 200. -/
def sampleExternal : External :=
  { jsonOk := sampleJsonOk
    now := 0
    nowValid := by decide
    etag := fun _ => "W/sample"
    noneMatchDecides := false
    upstreamStatus := 503
    message := fun _ => "error"
    malformed := fun t => t.isEmpty
    verifyCredential := fun t => if t = "secret" then .identity 1 else .rejected
    authHandlers := fun _ => .respond ⟨200, .json [("token", "secret")]⟩
    taskHandlers := fun _ _ => .respond ⟨200, .json []⟩ }

/-- A request with the given method and path, no body, no credential and no
conditional header. -/
def plain (m : Method) (path : String) : Request :=
  { method := m, path := path, baseUrl := "", declaredJson := false, utfCharset := true,
    knownEncoding := true, bodyBytes := 0, complete := true, body := "", credential := none,
    ifNoneMatch := none, ifModifiedSince := none, noCache := false }

/-- A request with the given method and path and a JSON body that does not parse. -/
def broken (m : Method) (path : String) : Request :=
  { plain m path with declaredJson := true, bodyBytes := 1, body := "[" }

/-- A request like `broken` whose body is also larger than the size limit. -/
def oversize (m : Method) (path : String) : Request :=
  { broken m path with bodyBytes := 200000 }

/-- A conditional request with the header `If-None-Match: *`. -/
def conditional (m : Method) (path : String) : Request :=
  { plain m path with ifNoneMatch := some "*" }

/-- Stage `a` ran, and stage `b` ran at some later point. -/
def runsBefore (a b : Stage) (l : List Stage) : Bool :=
  b ∈ (l.dropWhile (fun s => s != a)).drop 1

/-- The stages that serve a route: the health handler and the two routers. -/
def Stage.isRouteHandler : Stage → Bool
  | .health | .authRouter | .taskRouter => true
  | _ => false

/-- The registration order of `app.js`. -/
def declaredOrder : List Stage :=
  [.bodyParser, .logger, .health, .authRouter, .taskRouter, .errorHandler]

/-- No stage runs after a committed response, a failure of a request stage is
handed to the error handler, and the error handler is the last stage to run. -/
def Closed (d : Deps) (req : Request) (r : Run) : Prop :=
  (∀ i a resp, r.steps[i]? = some a → a.outcome = .respond resp →
      r.steps.length = i + 1 ∧ r.result = .responded resp)
    ∧ (∀ i a f, r.steps[i]? = some a → a.stage ≠ .errorHandler → a.outcome = .fail f →
        r.steps[i + 1]? = some (invoke d .errorHandler (some f) req)
          ∧ r.steps.length = i + 2)
    ∧ (∀ i a, r.steps[i]? = some a → a.stage = .errorHandler → r.steps.length = i + 1)

/-- The result of a run is the one its last stage invocation announces; a run
without any invocation ends as the pending error says. -/
def Ends (err : Option Failure) (r : Run) : Prop :=
  match r.steps.getLast? with
  | none => r.result = (match err with | none => .completed | some f => .failed f)
  | some last =>
    match last.outcome with
    | .next => r.result = .completed
    | .respond resp => r.result = .responded resp
    | .fail f => r.result = .failed f

/-- The stage a layer runs. -/
def Layer.stage : Layer → Stage
  | .use _ s => s
  | .route _ _ s => s
  | .useError _ s => s

/-- Whether a layer matches a (method, path) pair, as the dispatch loop tests
it: a mounted layer by its path alone, a route by its path and its method. -/
def Layer.accepts (m : Method) (path : String) : Layer → Bool
  | .use mount _ => matchMount mount path
  | .route rm rpath _ => matchRoute rpath path && handlesMethod rm m
  | .useError mount _ => matchMount mount path

/-- The route entries of the app: the layers that serve a route. -/
def routeEntries : List Layer :=
  app.filter (fun l => l.stage.isRouteHandler)

/-- The stage order of a run: registration order, the body parser first, the
logger only after the body parser, a route handler only after both. -/
def OrderedRun (r : Run) : Prop :=
  r.stages.Sublist declaredOrder
    ∧ r.stages.head? = some .bodyParser
    ∧ (Stage.logger ∈ r.stages → runsBefore .bodyParser .logger r.stages = true)
    ∧ (∀ s, s.isRouteHandler = true → s ∈ r.stages →
        runsBefore .bodyParser s r.stages = true ∧ runsBefore .logger s r.stages = true)
    ∧ runsBefore .logger .bodyParser r.stages = false

/-- The layer table of `app.js` with line 10, the logger, left out. -/
def withoutLogger : List Layer :=
  app.filter (fun l => l.stage != .logger)

/-! ## Theorems -/

theorem matchMount_root (path : String) : matchMount "/" path = true := by
  simp [matchMount]

theorem mounted_root (req : Request) : mounted "/" req = req := by
  simp [mounted]

theorem invoke_stage (d : Deps) (s : Stage) (err : Option Failure) (req : Request) :
    (invoke d s err req).stage = s := by
  cases s <;> cases err <;> rfl

theorem closed_afterStep (d : Deps) (req : Request) (st : Step) (rest : Option Failure → Run)
    (hrest : ∀ e, Closed d req (rest e))
    (hpend : ∀ f, st.stage ≠ .errorHandler → st.outcome = .fail f →
      (rest (some f)).steps = [invoke d .errorHandler (some f) req])
    (hlast : st.stage = .errorHandler → ∀ e, (rest e).steps = []) :
    Closed d req (afterStep st rest) := by
  unfold afterStep
  split
  · next h =>
    obtain ⟨h1, h2, h3⟩ := hrest none
    refine ⟨?_, ?_, ?_⟩
    · intro i a resp hi ha
      cases i with
      | zero =>
        simp [Run.push] at hi
        subst hi
        rw [h] at ha
        cases ha
      | succ i =>
        simp [Run.push] at hi
        have := h1 i a resp hi ha
        simp [Run.push, this]
    · intro i a f hi hs ha
      cases i with
      | zero =>
        simp [Run.push] at hi
        subst hi
        rw [h] at ha
        cases ha
      | succ i =>
        simp [Run.push] at hi
        obtain ⟨t1, t2⟩ := h2 i a f hi hs ha
        exact ⟨by simpa [Run.push] using t1, by simp [Run.push, t2]⟩
    · intro i a hi hs
      cases i with
      | zero =>
        simp [Run.push] at hi
        subst hi
        simp [Run.push, hlast hs none]
      | succ i =>
        simp [Run.push] at hi
        simp [Run.push, h3 i a hi hs]
  · next f0 h =>
    obtain ⟨h1, h2, h3⟩ := hrest (some f0)
    refine ⟨?_, ?_, ?_⟩
    · intro i a resp hi ha
      cases i with
      | zero =>
        simp [Run.push] at hi
        subst hi
        rw [h] at ha
        cases ha
      | succ i =>
        simp [Run.push] at hi
        have := h1 i a resp hi ha
        simp [Run.push, this]
    · intro i a f hi hs ha
      cases i with
      | zero =>
        simp [Run.push] at hi
        subst hi
        rw [h] at ha
        cases ha
        simp [Run.push, hpend f0 hs h]
      | succ i =>
        simp [Run.push] at hi
        obtain ⟨t1, t2⟩ := h2 i a f hi hs ha
        exact ⟨by simpa [Run.push] using t1, by simp [Run.push, t2]⟩
    · intro i a hi hs
      cases i with
      | zero =>
        simp [Run.push] at hi
        subst hi
        simp [Run.push, hlast hs (some f0)]
      | succ i =>
        simp [Run.push] at hi
        simp [Run.push, h3 i a hi hs]
  · next resp0 h =>
    refine ⟨?_, ?_, ?_⟩
    · intro i a resp hi ha
      cases i with
      | zero =>
        simp at hi
        subst hi
        rw [h] at ha
        cases ha
        simp
      | succ i => simp at hi
    · intro i a f hi hs ha
      cases i with
      | zero =>
        simp at hi
        subst hi
        rw [h] at ha
        cases ha
      | succ i => simp at hi
    · intro i a hi _
      cases i with
      | zero => simp
      | succ i => simp at hi

theorem closed_nil (d : Deps) (req : Request) (err : Option Failure) :
    Closed d req (dispatch d req [] err) := by
  cases err <;> simp [dispatch, Closed]

theorem closed_allowing (d : Deps) (req : Request) (ms : List Method) (r : Run)
    (h : Closed d req r) : Closed d req (r.allowing ms) := h

theorem ends_afterStep (st : Step) (rest : Option Failure → Run) (err : Option Failure)
    (hrest : ∀ e, Ends e (rest e)) : Ends err (afterStep st rest) := by
  unfold afterStep
  split
  · next h =>
    have h0 := hrest none
    unfold Ends at h0 ⊢
    cases hs : (rest none).steps with
    | nil => simp [Run.push, hs, h] at h0 ⊢; exact h0
    | cons b l =>
      simp only [Run.push, hs, List.getLast?_cons_cons] at h0 ⊢
      exact h0
  · next f h =>
    have h0 := hrest (some f)
    unfold Ends at h0 ⊢
    cases hs : (rest (some f)).steps with
    | nil => simp [Run.push, hs, h] at h0 ⊢; exact h0
    | cons b l =>
      simp only [Run.push, hs, List.getLast?_cons_cons] at h0 ⊢
      exact h0
  · next resp h =>
    simp [Ends, h]

theorem ends_dispatch (d : Deps) (req : Request) (ls : List Layer) :
    ∀ err, Ends err (dispatch d req ls err) := by
  induction ls with
  | nil => intro err; cases err <;> simp [dispatch, Ends]
  | cons l ls ih =>
    intro err
    cases l with
    | use mount s =>
      simp only [dispatch]
      split
      · cases err with
        | none => exact ends_afterStep _ _ _ ih
        | some f => exact ih _
      · exact ih _
    | useError mount s =>
      simp only [dispatch]
      split
      · cases err with
        | none => exact ih _
        | some f => exact ends_afterStep _ _ _ ih
      · exact ih _
    | route m path s =>
      simp only [dispatch]
      split
      · cases err with
        | some f => exact ih _
        | none =>
          simp only
          split
          · exact ends_afterStep _ _ _ ih
          · split
            · exact ih none
            · exact ih none
      · exact ih _

theorem dispatch_pending_use (d : Deps) (req : Request) (mount : String) (s : Stage)
    (ls : List Layer) (f : Failure) :
    dispatch d req (.use mount s :: ls) (some f) = dispatch d req ls (some f) := by
  simp only [dispatch]
  split <;> rfl

theorem dispatch_pending_route (d : Deps) (req : Request) (m : Method) (path : String)
    (s : Stage) (ls : List Layer) (f : Failure) :
    dispatch d req (.route m path s :: ls) (some f) = dispatch d req ls (some f) := by
  simp only [dispatch]
  split <;> rfl

theorem dispatch_pending_last (d : Deps) (req : Request) (s : Stage) (f : Failure) :
    dispatch d req [.useError "/" s] (some f)
      = afterStep (invoke d s (some f) req) (dispatch d req []) := by
  simp [dispatch, matchMount_root, mounted_root]

theorem afterStep_nil_steps (d : Deps) (req : Request) (st : Step) :
    (afterStep st (dispatch d req [])).steps = [st] := by
  unfold afterStep
  split <;> simp [dispatch, Run.push]

theorem afterStep_steps_ne_nil (st : Step) (rest : Option Failure → Run) :
    (afterStep st rest).steps ≠ [] := by
  unfold afterStep
  split <;> simp [Run.push]

theorem closed_use (d : Deps) (req : Request) (mount : String) (s : Stage) (ls : List Layer)
    (hs : s ≠ .errorHandler)
    (hrest : ∀ e, Closed d req (dispatch d req ls e))
    (hpend : ∀ f, (dispatch d req ls (some f)).steps = [invoke d .errorHandler (some f) req]) :
    ∀ err, Closed d req (dispatch d req (.use mount s :: ls) err) := by
  intro err
  simp only [dispatch]
  split
  · cases err with
    | none =>
      exact closed_afterStep d req _ _ hrest (fun f _ _ => hpend f)
        (fun h => absurd ((invoke_stage d s _ _).symm.trans h) hs)
    | some f => exact hrest _
  · exact hrest _

theorem closed_route (d : Deps) (req : Request) (m : Method) (path : String) (s : Stage)
    (ls : List Layer) (hs : s ≠ .errorHandler)
    (hrest : ∀ e, Closed d req (dispatch d req ls e))
    (hpend : ∀ f, (dispatch d req ls (some f)).steps = [invoke d .errorHandler (some f) req]) :
    ∀ err, Closed d req (dispatch d req (.route m path s :: ls) err) := by
  intro err
  simp only [dispatch]
  split
  · cases err with
    | some f => exact hrest _
    | none =>
      simp only
      split
      · exact closed_afterStep d req _ _ hrest (fun f _ _ => hpend f)
          (fun h => absurd ((invoke_stage d s _ _).symm.trans h) hs)
      · split
        · exact closed_allowing d req _ _ (hrest none)
        · exact hrest none
  · exact hrest _

theorem closed_useError (d : Deps) (req : Request) (mount : String) :
    ∀ err, Closed d req (dispatch d req [.useError mount .errorHandler] err) := by
  intro err
  simp only [dispatch]
  split
  · cases err with
    | none => exact closed_nil d req none
    | some f =>
      exact closed_afterStep d req _ _ (closed_nil d req)
        (fun f hs _ => absurd (invoke_stage d .errorHandler _ _) hs)
        (fun _ e => by cases e <;> rfl)
  · cases err with
    | none => exact closed_nil d req none
    | some f => exact closed_nil d req (some f)

theorem pending_last (d : Deps) (req : Request) (f : Failure) :
    (dispatch d req [.useError "/" .errorHandler] (some f)).steps
      = [invoke d .errorHandler (some f) req] := by
  rw [dispatch_pending_last, afterStep_nil_steps]

theorem closed_handle (d : Deps) (req : Request) : Closed d req (handle d req) := by
  have p5 := pending_last d req
  have c5 := closed_useError d req "/"
  have p4 : ∀ f, (dispatch d req [.use "/api/tasks" .taskRouter, .useError "/" .errorHandler]
      (some f)).steps = [invoke d .errorHandler (some f) req] := by
    intro f; rw [dispatch_pending_use]; exact p5 f
  have c4 := closed_use d req "/api/tasks" .taskRouter _ (by decide) c5 p5
  have p3 : ∀ f, (dispatch d req [.use "/api/auth" .authRouter, .use "/api/tasks" .taskRouter,
      .useError "/" .errorHandler] (some f)).steps = [invoke d .errorHandler (some f) req] := by
    intro f; rw [dispatch_pending_use]; exact p4 f
  have c3 := closed_use d req "/api/auth" .authRouter _ (by decide) c4 p4
  have p2 : ∀ f, (dispatch d req [.route .GET "/health" .health, .use "/api/auth" .authRouter,
      .use "/api/tasks" .taskRouter, .useError "/" .errorHandler] (some f)).steps
        = [invoke d .errorHandler (some f) req] := by
    intro f; rw [dispatch_pending_route]; exact p3 f
  have c2 := closed_route d req .GET "/health" .health _ (by decide) c3 p3
  have p1 : ∀ f, (dispatch d req [.use "/" .logger, .route .GET "/health" .health,
      .use "/api/auth" .authRouter, .use "/api/tasks" .taskRouter,
      .useError "/" .errorHandler] (some f)).steps
        = [invoke d .errorHandler (some f) req] := by
    intro f; rw [dispatch_pending_use]; exact p2 f
  have c1 := closed_use d req "/" .logger _ (by decide) c2 p2
  exact closed_use d req "/" .bodyParser _ (by decide) c1 p1 none

theorem handle_steps_ne_nil (d : Deps) (req : Request) : (handle d req).steps ≠ [] := by
  simp only [handle, app, dispatch, matchMount_root, if_true]
  exact afterStep_steps_ne_nil _ _

/-- C3: in every run of the app, (1) a stage that commits a response is the
last stage to run and its response is the result; (2) when a request stage
(any stage but the error handler) raises a failure, the very next stage is the
error handler, it receives that failure, and nothing runs after it; (3) the
error handler, whenever it runs, is the last stage to run; (4) the run ends in
exactly one of the three results, named by the outcome of the last stage:
normal completion, an explicit response, or a failure, the latter only when
the error handler itself passed a failure on. -/
theorem short_circuit (d : Deps) (req : Request) :
    (∀ i a resp, (handle d req).steps[i]? = some a → a.outcome = .respond resp →
        (handle d req).steps.length = i + 1 ∧ (handle d req).result = .responded resp)
      ∧ (∀ i a f, (handle d req).steps[i]? = some a → a.stage ≠ .errorHandler →
          a.outcome = .fail f →
          (handle d req).steps[i + 1]? = some (invoke d .errorHandler (some f) req)
            ∧ (handle d req).steps.length = i + 2)
      ∧ (∀ i a, (handle d req).steps[i]? = some a → a.stage = .errorHandler →
          (handle d req).steps.length = i + 1)
      ∧ (∃ last, (handle d req).steps.getLast? = some last ∧
          match last.outcome with
          | .next => (handle d req).result = .completed
          | .respond resp => (handle d req).result = .responded resp
          | .fail f => (handle d req).result = .failed f ∧ last.stage = .errorHandler) := by
  obtain ⟨h1, h2, h3⟩ := closed_handle d req
  refine ⟨h1, h2, h3, ?_⟩
  have hne := handle_steps_ne_nil d req
  have hends := ends_dispatch d req app none
  change Ends none (handle d req) at hends
  unfold Ends at hends
  cases hl : (handle d req).steps.getLast? with
  | none => exact absurd (List.getLast?_eq_none_iff.mp hl) hne
  | some last =>
    refine ⟨last, rfl, ?_⟩
    rw [hl] at hends
    simp only at hends
    cases ho : last.outcome with
    | next => rw [ho] at hends; exact hends
    | respond resp => rw [ho] at hends; exact hends
    | fail f =>
      rw [ho] at hends
      refine ⟨hends, ?_⟩
      by_contra hs
      rw [List.getLast?_eq_getElem?] at hl
      have := (h2 _ last f hl hs ho).2
      have hpos : 0 < (handle d req).steps.length := List.length_pos.mpr hne
      omega

/-! ### Path matching -/

theorem stripPattern_getElem (pat : List Char) :
    ∀ (path rest : List Char), stripPattern pat path = some rest →
      ∀ i, i < pat.length → (path[i]?).map Char.toLower = (pat[i]?).map Char.toLower := by
  induction pat with
  | nil => intro path rest _ i hi; simp at hi
  | cons p ps ih =>
    intro path rest h i hi
    cases path with
    | nil => simp [stripPattern] at h
    | cons c cs =>
      simp only [stripPattern] at h
      split at h
      · next hc =>
        cases i with
        | zero => simp [hc]
        | succ i =>
          simp only [List.getElem?_cons_succ]
          exact ih cs rest h i (by simpa using hi)
      · cases h

theorem matchRoute_strip (pattern path : String) (h : matchRoute pattern path = true) :
    ∃ rest, stripPattern pattern.data path.data = some rest := by
  unfold matchRoute at h
  split at h
  · exact ⟨_, by assumption⟩
  · exact ⟨_, by assumption⟩
  · cases h

theorem matchMount_strip (pattern path : String) (hp : pattern ≠ "/")
    (h : matchMount pattern path = true) :
    ∃ rest, stripPattern pattern.data path.data = some rest := by
  unfold matchMount at h
  rw [if_neg hp] at h
  split at h
  · exact ⟨_, by assumption⟩
  · exact ⟨_, by assumption⟩
  · cases h

theorem health_not_auth (path : String) (h : matchRoute "/health" path = true) :
    matchMount "/api/auth" path = false := by
  by_contra h2
  simp only [Bool.not_eq_false] at h2
  obtain ⟨r1, h1⟩ := matchRoute_strip _ _ h
  obtain ⟨r2, h2⟩ := matchMount_strip _ _ (by decide) h2
  have e1 := stripPattern_getElem _ _ _ h1 1 (by decide)
  have e2 := stripPattern_getElem _ _ _ h2 1 (by decide)
  rw [e1] at e2
  exact absurd e2 (by decide)

theorem health_not_tasks (path : String) (h : matchRoute "/health" path = true) :
    matchMount "/api/tasks" path = false := by
  by_contra h2
  simp only [Bool.not_eq_false] at h2
  obtain ⟨r1, h1⟩ := matchRoute_strip _ _ h
  obtain ⟨r2, h2⟩ := matchMount_strip _ _ (by decide) h2
  have e1 := stripPattern_getElem _ _ _ h1 1 (by decide)
  have e2 := stripPattern_getElem _ _ _ h2 1 (by decide)
  rw [e1] at e2
  exact absurd e2 (by decide)

theorem auth_not_tasks (path : String) (h : matchMount "/api/auth" path = true) :
    matchMount "/api/tasks" path = false := by
  by_contra h2
  simp only [Bool.not_eq_false] at h2
  obtain ⟨r1, h1⟩ := matchMount_strip _ _ (by decide) h
  obtain ⟨r2, h2⟩ := matchMount_strip _ _ (by decide) h2
  have e1 := stripPattern_getElem _ _ _ h1 5 (by decide)
  have e2 := stripPattern_getElem _ _ _ h2 5 (by decide)
  rw [e1] at e2
  exact absurd e2 (by decide)

/-! ### Order of the stages -/

theorem orderedRun_handle (d : Deps) (req : Request) : OrderedRun (handle d req) := by
  simp only [handle, app, dispatch, matchMount_root, mounted_root, afterStep, invoke,
    healthHandler, if_true]
  repeat' split
  all_goals
    simp only [OrderedRun, Run.push, Run.allowing, Run.stages, List.map]
    refine ⟨by decide, by decide, by decide, ?_, by decide⟩
    intro s hs
    cases s <;> first | decide | exact absurd hs (by decide)

/-- C2, as the code has it: the stages run in registration order, which is
body parser, then logger, then the routes. Every run starts with the body
parser; when the logger runs, the body parser ran before it; when a route
handler (health handler, auth router, task router) runs, the body parser and
the logger ran before it; and the logger never runs before the body parser. -/
theorem parser_then_logger_then_routes (d : Deps) (req : Request) :
    (handle d req).stages.Sublist declaredOrder
      ∧ (handle d req).stages.head? = some .bodyParser
      ∧ (Stage.logger ∈ (handle d req).stages →
          runsBefore .bodyParser .logger (handle d req).stages = true)
      ∧ (∀ s, s.isRouteHandler = true → s ∈ (handle d req).stages →
          runsBefore .bodyParser s (handle d req).stages = true
            ∧ runsBefore .logger s (handle d req).stages = true)
      ∧ runsBefore .logger .bodyParser (handle d req).stages = false :=
  orderedRun_handle d req

/-- C2, counterexample: for `GET /health` without a body the stages run as
body parser, logger, health handler: the body parser runs before the logger,
and the logger does not run before the body parser. -/
theorem parser_runs_before_logger :
    (handle (specDeps sampleExternal) (plain .GET "/health")).stages
        = [.bodyParser, .logger, .health]
      ∧ runsBefore .logger .bodyParser
          (handle (specDeps sampleExternal) (plain .GET "/health")).stages = false
      ∧ runsBefore .bodyParser .logger
          (handle (specDeps sampleExternal) (plain .GET "/health")).stages = true := by
  decide

/-! ### One route entry per request -/

theorem route_stage_count (d : Deps) (req : Request) :
    ((handle d req).stages.filter Stage.isRouteHandler).length ≤ 1 := by
  have h1 := health_not_auth req.path
  have h2 := health_not_tasks req.path
  have h3 := auth_not_tasks req.path
  simp only [handle, app, dispatch, matchMount_root, mounted_root, afterStep, invoke,
    healthHandler, if_true]
  repeat' split
  all_goals simp only [Run.push, Run.allowing, Run.stages, List.map]
  all_goals first | decide | simp_all

/-- C8: for every (method, path) pair at most one route entry of the app
matches: the paths `/health`, `/api/auth` and `/api/tasks` are pairwise
disjoint under the matching of Express, and in every run at most one of the
health handler, the auth router and the task router is invoked. -/
theorem one_route_entry (d : Deps) (req : Request) :
    (routeEntries.filter (Layer.accepts req.method req.path)).length ≤ 1
      ∧ ¬ (matchRoute "/health" req.path = true ∧ matchMount "/api/auth" req.path = true)
      ∧ ¬ (matchRoute "/health" req.path = true ∧ matchMount "/api/tasks" req.path = true)
      ∧ ¬ (matchMount "/api/auth" req.path = true ∧ matchMount "/api/tasks" req.path = true)
      ∧ ((handle d req).stages.filter Stage.isRouteHandler).length ≤ 1 := by
  have h1 := health_not_auth req.path
  have h2 := health_not_tasks req.path
  have h3 := auth_not_tasks req.path
  refine ⟨?_, ?_, ?_, ?_, route_stage_count d req⟩
  · have e : routeEntries = [.route .GET "/health" .health, .use "/api/auth" .authRouter,
        .use "/api/tasks" .taskRouter] := by decide
    rw [e]
    simp only [List.filter, Layer.accepts]
    cases hh : matchRoute "/health" req.path <;> cases ha : matchMount "/api/auth" req.path <;>
      cases ht : matchMount "/api/tasks" req.path <;>
      cases hm : handlesMethod .GET req.method <;> simp_all
  · rintro ⟨a, b⟩; rw [h1 a] at b; cases b
  · rintro ⟨a, b⟩; rw [h2 a] at b; cases b
  · rintro ⟨a, b⟩; rw [h3 a] at b; cases b

/-! ### The clock and `toISOString` -/

theorem yearLen_pos (y : Int) : 365 ≤ yearLen y := by
  unfold yearLen; split <;> omega

theorem yearOf_lt : ∀ (fuel : Nat) (y : Int) (d : Nat), d < fuel →
    (yearOf fuel y d).2 < yearLen (yearOf fuel y d).1 := by
  intro fuel
  induction fuel with
  | zero => intro y d h; omega
  | succ n ih =>
    intro y d h
    unfold yearOf
    split
    · assumption
    · have := yearLen_pos y
      exact ih (y + 1) (d - yearLen y) (by omega)

theorem monthOf_spec : ∀ (ls : List Nat) (m d : Nat), d < ls.sum →
    m ≤ (monthOf ls m d).1 ∧ (monthOf ls m d).1 < m + ls.length
      ∧ (monthOf ls m d).2 < ls.getD ((monthOf ls m d).1 - m) 0 := by
  intro ls
  induction ls with
  | nil => intro m d h; simp at h
  | cons l ls ih =>
    intro m d h
    unfold monthOf
    split
    · simp; omega
    · next hd =>
      simp only [List.sum_cons] at h
      obtain ⟨h1, h2, h3⟩ := ih (m + 1) (d - l) (by omega)
      refine ⟨by omega, by simp only [List.length_cons]; omega, ?_⟩
      have e : (monthOf ls (m + 1) (d - l)).1 - m = ((monthOf ls (m + 1) (d - l)).1 - (m + 1)) + 1 := by
        omega
      rw [e, List.getD_cons_succ]
      exact h3

theorem monthLens_sum (y : Int) : (monthLens y).sum = yearLen y := by
  unfold monthLens yearLen
  cases isLeap y <;> rfl

theorem monthOf_range (y : Int) (doy : Nat) (h : doy < yearLen y) :
    1 ≤ (monthOf (monthLens y) 1 doy).1 ∧ (monthOf (monthLens y) 1 doy).1 ≤ 12
      ∧ (monthOf (monthLens y) 1 doy).2 < daysIn y (monthOf (monthLens y) 1 doy).1 := by
  obtain ⟨h1, h2, h3⟩ := monthOf_spec (monthLens y) 1 doy (by rw [monthLens_sum]; exact h)
  have hl : (monthLens y).length = 12 := by simp [monthLens]
  rw [hl] at h2
  exact ⟨h1, by omega, h3⟩

theorem daysIn_le (y : Int) (m : Nat) : daysIn y m ≤ 31 := by
  unfold daysIn monthLens
  rcases hm : m - 1 with _ | _ | _ | _ | _ | _ | _ | _ | _ | _ | _ | _ | k <;>
    cases isLeap y <;> simp

theorem digitValue_digit (n : Nat) : digitValue (digit n) = some (n % 10) := by
  have h := Nat.mod_lt n (by decide : 0 < 10)
  unfold digit
  generalize n % 10 = k at h
  interval_cases k <;> decide

theorem digit_not_sign (n : Nat) : digit n ≠ '+' ∧ digit n ≠ '-' := by
  have h := Nat.mod_lt n (by decide : 0 < 10)
  unfold digit
  generalize n % 10 = k at h
  interval_cases k <;> decide

theorem number_digits2 (n : Nat) (h : n < 100) : number (digits2 n) = some n := by
  simp only [number, digits2, List.foldl, digitValue_digit]
  have e : (0 * 10 + n / 10 % 10) * 10 + n % 10 = n := by omega
  rw [e]

theorem number_digits3 (n : Nat) (h : n < 1000) : number (digits3 n) = some n := by
  simp only [number, digits3, List.foldl, digitValue_digit]
  have e : ((0 * 10 + n / 100 % 10) * 10 + n / 10 % 10) * 10 + n % 10 = n := by omega
  rw [e]

theorem number_digits4 (n : Nat) (h : n < 10000) : number (digits4 n) = some n := by
  simp only [number, digits4, List.foldl, digitValue_digit]
  have e : (((0 * 10 + n / 1000 % 10) * 10 + n / 100 % 10) * 10 + n / 10 % 10) * 10 + n % 10
      = n := by omega
  rw [e]

theorem number_digits6 (n : Nat) (h : n < 1000000) : number (digits6 n) = some n := by
  simp only [number, digits6, List.foldl, digitValue_digit]
  have e : (((((0 * 10 + n / 100000 % 10) * 10 + n / 10000 % 10) * 10 + n / 1000 % 10) * 10
      + n / 100 % 10) * 10 + n / 10 % 10) * 10 + n % 10 = n := by omega
  rw [e]

theorem parseRest_civil (year : Int) (t : DateTime)
    (hm1 : 1 ≤ t.month) (hm2 : t.month ≤ 12) (hd1 : 1 ≤ t.day) (hd2 : t.day ≤ daysIn year t.month)
    (hh : t.hour ≤ 23) (hn : t.minute ≤ 59) (hs : t.second ≤ 59) (hms : t.milli < 1000) :
    (parseRest year ('-' :: digits2 t.month ++ '-' :: digits2 t.day ++
      'T' :: digits2 t.hour ++ ':' :: digits2 t.minute ++ ':' :: digits2 t.second ++
      '.' :: digits3 t.milli ++ ['Z'])).isSome = true := by
  have hd3 := daysIn_le year t.month
  have hv := number_digits3 t.milli hms
  have e2 : ∀ n, digits2 n = [digit (n / 10), digit n] := fun _ => rfl
  have e3 : ∀ n, digits3 n = [digit (n / 100), digit (n / 10), digit n] := fun _ => rfl
  have n1 := number_digits2 t.month (by omega)
  have n2 := number_digits2 t.day (by omega)
  have n3 := number_digits2 t.hour (by omega)
  have n4 := number_digits2 t.minute (by omega)
  have n5 := number_digits2 t.second (by omega)
  rw [e2] at n1 n2 n3 n4 n5
  rw [e3] at hv
  simp only [e2, e3, List.cons_append, List.nil_append, parseRest, and_self, if_true, n1, n2, n3,
    n4, n5, hv]
  simp [hm1, hm2, hd1, hd2, hh, hn, hs]

theorem civil_range (ms : Int) :
    1 ≤ (civil ms).month ∧ (civil ms).month ≤ 12 ∧ 1 ≤ (civil ms).day
      ∧ (civil ms).day ≤ daysIn (civil ms).year (civil ms).month
      ∧ (civil ms).hour ≤ 23 ∧ (civil ms).minute ≤ 59 ∧ (civil ms).second ≤ 59
      ∧ (civil ms).milli < 1000 := by
  have hy := yearOf_lt ((ms / 86400000 % 146097).toNat + 1)
    (1970 + 400 * (ms / 86400000 / 146097)) (ms / 86400000 % 146097).toNat (by omega)
  obtain ⟨h1, h2, h3⟩ := monthOf_range _ _ hy
  have hr : (ms % 86400000).toNat < 86400000 := by omega
  simp only [civil]
  refine ⟨h1, h2, by omega, by omega, by omega, by omega, by omega, by omega⟩

theorem yearOf_bounds : ∀ (fuel : Nat) (y : Int) (d : Nat),
    y ≤ (yearOf fuel y d).1 ∧ (yearOf fuel y d).1 ≤ y + fuel := by
  intro fuel
  induction fuel with
  | zero => intro y d; simp [yearOf]
  | succ n ih =>
    intro y d
    unfold yearOf
    split
    · simp only [Nat.cast_add, Nat.cast_one]; omega
    · obtain ⟨h1, h2⟩ := ih (y + 1) (d - yearLen y)
      simp only [Nat.cast_add, Nat.cast_one]
      omega

theorem civil_year_bounds (ms : Int)
    (h : -8640000000000000 ≤ ms ∧ ms ≤ 8640000000000000) :
    -1000000 < (civil ms).year ∧ (civil ms).year < 1000000 := by
  obtain ⟨h1, h2⟩ := yearOf_bounds ((ms / 86400000 % 146097).toNat + 1)
    (1970 + 400 * (ms / 86400000 / 146097)) (ms / 86400000 % 146097).toNat
  simp only [civil]
  simp only [Nat.cast_add, Nat.cast_one] at h2
  omega

/-- Every time value in the range of `Date` is written by `toISOString` as a
string the parser accepts. -/
theorem toISOString_parses (ms : Int)
    (h : -8640000000000000 ≤ ms ∧ ms ≤ 8640000000000000) :
    (parseISO (toISOString ms)).isSome = true := by
  obtain ⟨hm1, hm2, hd1, hd2, hh, hn, hs, hms⟩ := civil_range ms
  have hrest := parseRest_civil (civil ms).year (civil ms) hm1 hm2 hd1 hd2 hh hn hs hms
  have e4 : ∀ n, digits4 n = [digit (n / 1000), digit (n / 100), digit (n / 10), digit n] :=
    fun _ => rfl
  have e6 : ∀ n, digits6 n = [digit (n / 100000), digit (n / 10000), digit (n / 1000),
    digit (n / 100), digit (n / 10), digit n] := fun _ => rfl
  have e2 : ∀ n, digits2 n = [digit (n / 10), digit n] := fun _ => rfl
  unfold parseISO toISOString yearText
  simp only []
  split_ifs with hy
  · have hn4 := number_digits4 (civil ms).year.toNat (by omega)
    rw [e4] at hn4
    have hs1 := (digit_not_sign ((civil ms).year.toNat / 1000)).1
    have hs2 := (digit_not_sign ((civil ms).year.toNat / 1000)).2
    simp only [e4, e2, List.cons_append, List.nil_append, hs1, hs2, or_self, if_false, hn4]
    have ey : (((civil ms).year.toNat : Nat) : Int) = (civil ms).year := by omega
    rw [ey]
    simpa only [e2, List.cons_append, List.nil_append] using hrest
  · have hb := civil_year_bounds ms h
    have hn6 := number_digits6 (civil ms).year.natAbs (by omega)
    rw [e6] at hn6
    have h0 : (civil ms).year.natAbs ≠ 0 := by omega
    simp only [e6, e2, List.cons_append, List.nil_append, or_true, if_true, hn6, true_and, h0,
      if_false]
    have ey : -(((civil ms).year.natAbs : Nat) : Int) = (civil ms).year := by omega
    rw [ey]
    simpa only [e2, List.cons_append, List.nil_append] using hrest
  · have hb := civil_year_bounds ms h
    have hn6 := number_digits6 (civil ms).year.natAbs (by omega)
    rw [e6] at hn6
    have hpm : ¬ ('+' = '-') := by decide
    simp only [e6, e2, List.cons_append, List.nil_append, true_or, if_true, hn6, hpm, false_and,
      if_false]
    have ey : (((civil ms).year.natAbs : Nat) : Int) = (civil ms).year := by omega
    rw [ey]
    simpa only [e2, List.cons_append, List.nil_append] using hrest

/-! ### The health route -/

theorem send_not_fresh (d : Deps) (req : Request) (body : Body) (hm : req.method = .GET)
    (hf : fresh d req (d.etag body) = false) :
    send d req 200 body = { status := 200, body := body } := by
  simp [send, isFresh, hf, hm]

theorem send_fresh (d : Deps) (req : Request) (body : Body) (hm : req.method = .GET)
    (hf : fresh d req (d.etag body) = true) :
    send d req 200 body = { status := 304, body := .empty } := by
  simp [send, isFresh, hf, hm]

theorem health_run (d : Deps) (req : Request)
    (hm : req.method = .GET) (hp : matchRoute "/health" req.path = true)
    (hb : bodyParser d req = .next) (hl : d.logger req = .next) :
    response (handle d req) = send d req 200 (healthBody d)
      ∧ (handle d req).stages = [.bodyParser, .logger, .health] := by
  simp [handle, app, dispatch, matchMount_root, mounted_root, afterStep, invoke, hb, hl, hp,
    hm, handlesMethod, healthHandler, response, Run.stages, Run.push]

/-- C1, as the code has it: a GET request to `/health` that the body parser
and the logger pass on is answered through `res.json`: with status 200 and the
JSON body with exactly the fields `status = "ok"` and `timestamp` = the ISO
string of the current time, unless the request is a conditional one that
Express finds fresh, which is answered 304 without a body. Either way the
stages that ran are the body parser, the logger and the health handler, so
the auth router, the task router and the error handler are not invoked. -/
theorem health_get_ok (d : Deps) (req : Request)
    (hm : req.method = .GET) (hp : req.path = "/health")
    (hb : bodyParser d req = .next) (hl : d.logger req = .next) :
    response (handle d req) =
        (if fresh d req (d.etag (healthBody d)) = true then
          { status := 304, body := .empty }
        else
          { status := 200,
            body := .json [("status", "ok"), ("timestamp", toISOString d.now)] })
      ∧ (handle d req).stages = [.bodyParser, .logger, .health]
      ∧ Stage.authRouter ∉ (handle d req).stages
      ∧ Stage.taskRouter ∉ (handle d req).stages
      ∧ Stage.errorHandler ∉ (handle d req).stages := by
  have h1 : matchRoute "/health" req.path = true := by rw [hp]; decide
  obtain ⟨hr, hs⟩ := health_run d req hm h1 hb hl
  refine ⟨?_, hs, by rw [hs]; decide, by rw [hs]; decide, by rw [hs]; decide⟩
  rw [hr]
  cases hf : fresh d req (d.etag (healthBody d))
  · rw [send_not_fresh d req _ hm hf]; rfl
  · rw [send_fresh d req _ hm hf]; rfl

theorem health_get_ok_witness :
    response (handle (specDeps sampleExternal) (plain .GET "/health")) =
        (if fresh (specDeps sampleExternal) (plain .GET "/health")
            ((specDeps sampleExternal).etag (healthBody (specDeps sampleExternal))) = true then
          { status := 304, body := .empty }
        else
          { status := 200,
            body := .json [("status", "ok"),
              ("timestamp", toISOString (specDeps sampleExternal).now)] })
      ∧ (handle (specDeps sampleExternal) (plain .GET "/health")).stages
          = [.bodyParser, .logger, .health]
      ∧ Stage.authRouter ∉ (handle (specDeps sampleExternal) (plain .GET "/health")).stages
      ∧ Stage.taskRouter ∉ (handle (specDeps sampleExternal) (plain .GET "/health")).stages
      ∧ Stage.errorHandler ∉ (handle (specDeps sampleExternal) (plain .GET "/health")).stages :=
  health_get_ok (specDeps sampleExternal) (plain .GET "/health") rfl rfl rfl rfl

/-- C1, counterexample: `GET /health` with the header `If-None-Match: *` gets
past the body parser and the logger and is answered 304 without a body, not
200 with the JSON body. -/
theorem health_get_fresh_304 :
    bodyParser (specDeps sampleExternal) (conditional .GET "/health") = .next
      ∧ (specDeps sampleExternal).logger (conditional .GET "/health") = .next
      ∧ response (handle (specDeps sampleExternal) (conditional .GET "/health"))
          = { status := 304, body := .empty }
      ∧ (response (handle (specDeps sampleExternal) (conditional .GET "/health"))).status
          ≠ 200 := by
  decide

/-- C9, as the code has it: a GET request whose path matches the health route
(`/health`, in any letter case, with or without a trailing slash), whose body
the body parser accepts, which the logger passes on and which Express does not
find fresh, is answered with status 200 and a JSON body that contains a
parseable timestamp: the field `timestamp` holds a string that the parser of
the ECMAScript date-time format accepts. -/
theorem health_status_timestamp (d : Deps) (req : Request)
    (hm : req.method = .GET) (hp : matchRoute "/health" req.path = true)
    (hb : bodyParser d req = .next) (hl : d.logger req = .next)
    (hf : fresh d req (d.etag (healthBody d)) = false) :
    (response (handle d req)).status = 200
      ∧ ∃ fields ts, (response (handle d req)).body = .json fields
          ∧ ("timestamp", ts) ∈ fields ∧ (parseISO ts).isSome = true := by
  obtain ⟨hr, _⟩ := health_run d req hm hp hb hl
  rw [hr, send_not_fresh d req _ hm hf]
  refine ⟨rfl, _, toISOString d.now, rfl, by simp, toISOString_parses d.now d.nowValid⟩

theorem health_status_timestamp_witness :
    (response (handle (specDeps sampleExternal) (plain .GET "/Health/"))).status = 200
      ∧ ∃ fields ts,
          (response (handle (specDeps sampleExternal) (plain .GET "/Health/"))).body
            = .json fields
          ∧ ("timestamp", ts) ∈ fields ∧ (parseISO ts).isSome = true :=
  health_status_timestamp (specDeps sampleExternal) (plain .GET "/Health/") rfl (by decide)
    rfl rfl (by decide)

/-- C9, counterexample: a `DELETE` request to `/health` is answered 404, a
`GET` request to `/health` with a JSON body that does not parse is answered
400, and a `GET` request to `/health/` with `If-None-Match: *` is answered 304
without a body; none is answered 200 with a timestamp. -/
theorem health_not_always_200 :
    (response (handle (specDeps sampleExternal) (plain .DELETE "/health"))).status = 404
      ∧ (response (handle (specDeps sampleExternal) (broken .GET "/health"))).status = 400
      ∧ response (handle (specDeps sampleExternal) (conditional .GET "/health/"))
          = { status := 304, body := .empty } := by
  decide

/-! ### Unmatched paths and unsupported methods -/

/-- C6, as the code has it: a request whose path matches none of `/health`,
`/api/auth` and `/api/tasks`, whose body the body parser accepts and which the
logger passes on, runs through the body parser and the logger only and is
answered 404 by the final handler of Express. -/
theorem unmatched_path_404 (d : Deps) (req : Request)
    (hh : matchRoute "/health" req.path = false)
    (ha : matchMount "/api/auth" req.path = false)
    (ht : matchMount "/api/tasks" req.path = false)
    (hb : bodyParser d req = .next) (hl : d.logger req = .next) :
    (response (handle d req)).status = 404
      ∧ (handle d req).stages = [.bodyParser, .logger] := by
  simp [handle, app, dispatch, matchMount_root, mounted_root, afterStep, invoke, hb, hl, hh,
    ha, ht, response, Run.push, Run.stages]

theorem unmatched_path_404_witness :
    (response (handle (specDeps sampleExternal) (plain .GET "/api/users"))).status = 404
      ∧ (handle (specDeps sampleExternal) (plain .GET "/api/users")).stages
          = [.bodyParser, .logger] :=
  unmatched_path_404 (specDeps sampleExternal) (plain .GET "/api/users") (by decide)
    (by decide) (by decide) rfl rfl

/-- C6, counterexample: `POST /api/users` matches no registered route, yet
with a JSON body that does not parse it is answered 400, not 404. -/
theorem unmatched_path_400 :
    matchRoute "/health" "/api/users" = false
      ∧ matchMount "/api/auth" "/api/users" = false
      ∧ matchMount "/api/tasks" "/api/users" = false
      ∧ (response (handle (specDeps sampleExternal) (broken .POST "/api/users"))).status = 400
      ∧ (response (handle (specDeps sampleExternal) (broken .POST "/api/users"))).status
          ≠ 404 := by
  decide

/-- C7, as the code has it: the app has no answer 405. A request whose path
matches the health route and whose method is neither GET nor HEAD, whose body
the body parser accepts and which the logger passes on, never reaches the
health handler; Express answers it itself, with 404, or for `OPTIONS` with 200
and the list of the methods of the route. -/
theorem wrong_method_404 (d : Deps) (req : Request)
    (hp : matchRoute "/health" req.path = true)
    (hg : req.method ≠ .GET) (hhd : req.method ≠ .HEAD)
    (hb : bodyParser d req = .next) (hl : d.logger req = .next) :
    response (handle d req)
        = (if req.method = .OPTIONS then ⟨200, .text "GET,HEAD"⟩ else ⟨404, .html⟩)
      ∧ (response (handle d req)).status ≠ 405
      ∧ (handle d req).stages = [.bodyParser, .logger] := by
  have ha := health_not_auth req.path hp
  have ht := health_not_tasks req.path hp
  have hm : handlesMethod .GET req.method = false := by
    cases h : req.method <;> simp_all [handlesMethod]
  by_cases ho : req.method = .OPTIONS
  · simp [handle, app, dispatch, matchMount_root, mounted_root, afterStep, invoke, hb, hl, hp,
      ha, ht, ho, handlesMethod, response, Run.push, Run.stages, Run.allowing, routeOptions]
    decide
  · simp [handle, app, dispatch, matchMount_root, mounted_root, afterStep, invoke, hb, hl, hp,
      ha, ht, hm, ho, response, Run.push, Run.stages, Run.allowing]

theorem wrong_method_404_witness :
    response (handle (specDeps sampleExternal) (plain .PUT "/health"))
        = (if (plain .PUT "/health").method = .OPTIONS then ⟨200, .text "GET,HEAD"⟩
            else ⟨404, .html⟩)
      ∧ (response (handle (specDeps sampleExternal) (plain .PUT "/health"))).status ≠ 405
      ∧ (handle (specDeps sampleExternal) (plain .PUT "/health")).stages
          = [.bodyParser, .logger] :=
  wrong_method_404 (specDeps sampleExternal) (plain .PUT "/health") (by decide) (by decide)
    (by decide) rfl rfl

/-- C7, counterexample: `POST /health` matches the path of the health route,
which serves GET only, and is answered 404, not 405. -/
theorem wrong_method_not_405 :
    matchRoute "/health" (plain .POST "/health").path = true
      ∧ handlesMethod .GET (plain .POST "/health").method = false
      ∧ (response (handle (specDeps sampleExternal) (plain .POST "/health"))).status = 404
      ∧ (response (handle (specDeps sampleExternal) (plain .POST "/health"))).status
          ≠ 405 := by
  decide

/-! ### Malformed bodies -/

theorem parser_fail_run (d : Deps) (req : Request) (f : Failure)
    (hb : bodyParser d req = .fail f) :
    (handle d req).steps
        = [⟨.bodyParser, none, [], .fail f⟩, invoke d .errorHandler (some f) req]
      ∧ response (handle d req)
          = (match d.errorHandler f req with
            | .respond resp => resp
            | .fail g => { status := errorStatus g, body := .html }
            | .next => { status := 404, body := .html }) := by
  simp only [handle, app, dispatch, matchMount_root, mounted_root, afterStep, invoke, hb,
    if_true, ite_self]
  split <;> simp_all [Run.push, response]

theorem malformed_fails (d : Deps) (req : Request)
    (hj : req.declaredJson = true) (hp : parses d req.body = false) :
    ∃ f, bodyParser d req = .fail f ∧ (refusal req = none → f = parseError) := by
  unfold bodyParser
  cases hr : refusal req with
  | none => exact ⟨parseError, by simp [hj, hp], fun _ => rfl⟩
  | some f => exact ⟨f, by simp [hj], fun h => by cases h⟩

/-- C4, as the code has it: a request whose body is declared as JSON and does
not parse is handed by the body parser straight to the error handler: the
stages that run are the body parser and the error handler, so the logger, the
health handler, the auth router and the task router (and with it the task
handlers) are not invoked. When the body parser has read the body (supported
charset and content encoding, at most 100kb, received whole), the error
handler receives the parse error, and with the error normalizer of the
specification the response status is 400. -/
theorem malformed_json_400 (d : Deps) (x : External) (req : Request)
    (hE : d.errorHandler = specErrorHandler x)
    (hj : req.declaredJson = true) (hp : parses d req.body = false) :
    (handle d req).stages = [.bodyParser, .errorHandler]
      ∧ Stage.health ∉ (handle d req).stages
      ∧ Stage.authRouter ∉ (handle d req).stages
      ∧ Stage.taskRouter ∉ (handle d req).stages
      ∧ (handle d req).taskEvents = []
      ∧ (refusal req = none →
          (handle d req).steps.map Step.received = [none, some parseError]
            ∧ (response (handle d req)).status = 400) := by
  obtain ⟨f, hb, hf⟩ := malformed_fails d req hj hp
  obtain ⟨hs, hr⟩ := parser_fail_run d req f hb
  have hst : (handle d req).stages = [.bodyParser, .errorHandler] := by
    simp [Run.stages, hs, invoke]
  refine ⟨hst, by rw [hst]; decide, by rw [hst]; decide, by rw [hst]; decide, ?_, ?_⟩
  · simp [Run.taskEvents, hs, invoke]
  · intro hn
    have e := hf hn
    subst e
    refine ⟨by simp [hs, invoke], ?_⟩
    rw [hr, hE]
    simp [specErrorHandler, parseError, statusOf]

theorem malformed_json_400_witness :
    (handle (specDeps sampleExternal) (broken .POST "/api/tasks")).stages
        = [.bodyParser, .errorHandler]
      ∧ Stage.health ∉ (handle (specDeps sampleExternal) (broken .POST "/api/tasks")).stages
      ∧ Stage.authRouter ∉ (handle (specDeps sampleExternal) (broken .POST "/api/tasks")).stages
      ∧ Stage.taskRouter ∉ (handle (specDeps sampleExternal) (broken .POST "/api/tasks")).stages
      ∧ (handle (specDeps sampleExternal) (broken .POST "/api/tasks")).taskEvents = []
      ∧ (refusal (broken .POST "/api/tasks") = none →
          (handle (specDeps sampleExternal) (broken .POST "/api/tasks")).steps.map
              Step.received = [none, some parseError]
            ∧ (response (handle (specDeps sampleExternal) (broken .POST "/api/tasks"))).status
              = 400) :=
  malformed_json_400 (specDeps sampleExternal) sampleExternal (broken .POST "/api/tasks") rfl
    rfl (by decide)

/-- C4, counterexample: a `POST /api/tasks` whose body is declared as JSON,
does not parse and is larger than 100kb is refused by the body parser for its
size before any parsing: the error handler receives the 413 error, not the
parse error, and the response status is not 400. -/
theorem malformed_oversize_not_400 :
    (oversize .POST "/api/tasks").declaredJson = true
      ∧ parses (specDeps sampleExternal) (oversize .POST "/api/tasks").body = false
      ∧ (handle (specDeps sampleExternal) (oversize .POST "/api/tasks")).steps.map
          Step.received = [none, some tooLarge]
      ∧ tooLarge.status = some 413
      ∧ (response (handle (specDeps sampleExternal) (oversize .POST "/api/tasks"))).status
          ≠ 400 := by
  decide

/-! ### The auth guard in front of the task routes -/

theorem mounted_credential (pattern : String) (req : Request) :
    (mounted pattern req).credential = req.credential := by
  unfold mounted
  split <;> rfl

theorem guard_refuses (x : External) (req : Request)
    (h : lacksValidCredential x req = true) :
    specTaskRoutes x req = ([.guard], .fail unauthorized)
      ∨ specTaskRoutes x req = ([.guard, .verify], .fail unauthorized) := by
  unfold lacksValidCredential at h
  unfold specTaskRoutes specAuthGuard
  cases hc : req.credential with
  | none => simp
  | some token =>
    rw [hc] at h
    simp only [Bool.or_eq_true, decide_eq_true_eq] at h
    by_cases hm : x.malformed token = true
    · simp [hm]
    · rcases h with h | h
      · exact absurd h hm
      · simp [hm, h]

/-- C5, as the code has it: a request to a path under `/api/tasks` that lacks
a valid credential and whose body the body parser accepts passes the body
parser and the logger, enters the task router, is refused by the auth guard
and is answered 401 by the error handler; the task handlers are never
invoked. -/
theorem tasks_without_credential_401 (x : External) (req : Request)
    (ht : matchMount "/api/tasks" req.path = true)
    (hc : lacksValidCredential x req = true)
    (hb : bodyParser (specDeps x) req = .next) :
    (response (handle (specDeps x) req)).status = 401
      ∧ (handle (specDeps x) req).stages
          = [.bodyParser, .logger, .taskRouter, .errorHandler]
      ∧ (handle (specDeps x) req).taskEvents.head? = some .guard
      ∧ TaskEvent.handler ∉ (handle (specDeps x) req).taskEvents := by
  have hh : matchRoute "/health" req.path = false := by
    cases h : matchRoute "/health" req.path
    · rfl
    · rw [health_not_tasks req.path h] at ht; cases ht
  have ha : matchMount "/api/auth" req.path = false := by
    cases h : matchMount "/api/auth" req.path
    · rfl
    · rw [auth_not_tasks req.path h] at ht; cases ht
  have hc2 : lacksValidCredential x (mounted "/api/tasks" req) = true := by
    unfold lacksValidCredential at hc ⊢
    rw [mounted_credential]
    exact hc
  have hl : (specDeps x).logger req = .next := rfl
  have htr : (specDeps x).taskRoutes = specTaskRoutes x := rfl
  have her : (specDeps x).errorHandler = specErrorHandler x := rfl
  rcases guard_refuses x _ hc2 with hg | hg
  · simp [handle, app, dispatch, matchMount_root, mounted_root, afterStep, invoke, hb, hl, hh,
      ha, ht, htr, her, hg, specErrorHandler, response, Run.push, Run.stages, Run.taskEvents,
      unauthorized, statusOf]
  · simp [handle, app, dispatch, matchMount_root, mounted_root, afterStep, invoke, hb, hl, hh,
      ha, ht, htr, her, hg, specErrorHandler, response, Run.push, Run.stages, Run.taskEvents,
      unauthorized, statusOf]

theorem tasks_without_credential_401_witness :
    (response (handle (specDeps sampleExternal) (plain .GET "/api/tasks/7"))).status = 401
      ∧ (handle (specDeps sampleExternal) (plain .GET "/api/tasks/7")).stages
          = [.bodyParser, .logger, .taskRouter, .errorHandler]
      ∧ (handle (specDeps sampleExternal) (plain .GET "/api/tasks/7")).taskEvents.head?
          = some .guard
      ∧ TaskEvent.handler
          ∉ (handle (specDeps sampleExternal) (plain .GET "/api/tasks/7")).taskEvents :=
  tasks_without_credential_401 sampleExternal (plain .GET "/api/tasks/7") (by decide)
    (by decide) rfl

/-- C5, counterexample: `POST /api/tasks` without a credential and with a JSON
body that does not parse is answered 400, not 401: the body parser rejects it
before the task router and its auth guard are reached. -/
theorem tasks_without_credential_400 :
    matchMount "/api/tasks" (broken .POST "/api/tasks").path = true
      ∧ lacksValidCredential sampleExternal (broken .POST "/api/tasks") = true
      ∧ (response (handle (specDeps sampleExternal) (broken .POST "/api/tasks"))).status = 400
      ∧ (response (handle (specDeps sampleExternal) (broken .POST "/api/tasks"))).status ≠ 401
      ∧ Stage.taskRouter
          ∉ (handle (specDeps sampleExternal) (broken .POST "/api/tasks")).stages := by
  decide

/-! ### The logger -/

theorem logger_runs_second (d : Deps) (req : Request) (hb : bodyParser d req = .next) :
    (handle d req).stages.take 2 = [.bodyParser, .logger] := by
  simp only [handle, app, dispatch, matchMount_root, mounted_root, afterStep, invoke, hb,
    if_true]
  split <;> simp [Run.push, Run.stages]

theorem logger_skipped (d : Deps) (req : Request) (hb : bodyParser d req ≠ .next) :
    Stage.logger ∉ (handle d req).stages := by
  cases hbp : bodyParser d req with
  | next => exact absurd hbp hb
  | respond r =>
    unfold bodyParser at hbp
    split at hbp
    · split at hbp
      · cases hbp
      · split at hbp <;> cases hbp
    · cases hbp
  | fail f =>
    have hs := (parser_fail_run d req f hbp).1
    simp [Run.stages, hs, invoke]

theorem logger_transparent (d : Deps) (req : Request) (hl : d.logger req = .next) :
    (dispatch d req withoutLogger none).steps
        = (handle d req).steps.filter (fun st => st.stage != .logger)
      ∧ (dispatch d req withoutLogger none).result = (handle d req).result
      ∧ response (dispatch d req withoutLogger none) = response (handle d req) := by
  have e : withoutLogger = [.use "/" .bodyParser, .route .GET "/health" .health,
      .use "/api/auth" .authRouter, .use "/api/tasks" .taskRouter,
      .useError "/" .errorHandler] := by decide
  rw [e]
  simp only [handle, app, dispatch, matchMount_root, mounted_root, afterStep, invoke,
    healthHandler, hl, if_true]
  repeat' split
  all_goals simp_all [Run.push, Run.allowing, response]

/-- C10, as the code has it: the logger is registered after the body parser.
For every request the body parser accepts, the logger is the second stage to
run; a request the body parser rejects never reaches the logger; a logger
that passes control on does not change which later stages handle the request:
the app without the logger layer runs the same stages apart from the logger,
with the same result and the same response; and a request the body parser
rejects is handed to the error handler, the only other stage to run. -/
theorem logger_observes_accepted (d : Deps) (req : Request) :
    (bodyParser d req = .next → (handle d req).stages.take 2 = [.bodyParser, .logger])
      ∧ (bodyParser d req ≠ .next → Stage.logger ∉ (handle d req).stages)
      ∧ (d.logger req = .next →
          (dispatch d req withoutLogger none).steps
              = (handle d req).steps.filter (fun st => st.stage != .logger)
            ∧ (dispatch d req withoutLogger none).result = (handle d req).result
            ∧ response (dispatch d req withoutLogger none) = response (handle d req))
      ∧ (∀ f, bodyParser d req = .fail f →
          (handle d req).stages = [.bodyParser, .errorHandler]
            ∧ (handle d req).steps.map Step.received = [none, some f]) :=
  ⟨logger_runs_second d req, logger_skipped d req, logger_transparent d req,
    fun f hf => by
      have hs := (parser_fail_run d req f hf).1
      exact ⟨by simp [Run.stages, hs, invoke], by simp [hs, invoke]⟩⟩

/-- C10, counterexample: `POST /api/auth/login` with a JSON body that does not
parse runs the body parser and the error handler only; the logger is not
invoked. -/
theorem logger_misses_malformed :
    (handle (specDeps sampleExternal) (broken .POST "/api/auth/login")).stages
        = [.bodyParser, .errorHandler]
      ∧ Stage.logger
          ∉ (handle (specDeps sampleExternal) (broken .POST "/api/auth/login")).stages := by
  decide

end App
